import Mathlib

/-!
# Verification of the teuthology job supervisor against its specification

This file shallowly embeds the two source files of the repository —
`teuthology/dispatcher/supervisor.py` (the current supervisor) and
`teuthology/worker.py` (the older worker, still shipped) — as pure Lean
functions that return explicit event traces and filesystem states, and
proves or refutes the frozen claims about them.

Conventions of the embedding:
* Python dict fields read with `.get(key)` and tested for truthiness are
  modelled as `Option String` / `Bool` fields of `JobConfig`, where `none`
  (resp. `false`) stands for an absent key or a falsy value, since the code
  observes nothing finer.
* External collaborators (the tracking service, the lock/reimage/nuke
  client, `pull_directory`, the results serializer) are modelled by
  recording the call as an `Event`, with their return values supplied as
  parameters of the embedded function.
* `os.path.join a b` (with `b` a relative component, the only use in the
  source) is `pjoin a b = a ++ "/" ++ b`; note `pjoin a "" = a ++ "/"`,
  matching Python's trailing-slash behaviour for an empty component.
-/

/-- `os.path.join` for a relative second component, as used throughout the
source. -/
def pjoin (a b : String) : String := a ++ "/" ++ b

/-- The fields of the job descriptor (`job_config`) that the embedded code
reads.  Optional dict entries read via `.get` become `Option`/`Bool` fields;
`none`/`false` stands for "absent or falsy". -/
structure JobConfig where
  name : String
  job_id : String
  owner : String
  archive_path : String
  machine_type : String
  description : Option String
  verbose : Bool
  targets : Option (List (String × String))
  first_in_suite : Bool
  last_in_suite : Bool
  seed : Option String
  subset : Option String
  email : Option String
  results_timeout : Option String
  unlock_on_failure : Bool
  nuke_on_error : Bool
  teuthology_branch : Option String
deriving DecidableEq, Repr

/-- The fields of the ambient `teuth_config` that the embedded code reads. -/
structure TeuthConfig where
  results_server : Bool
  results_timeout : String
  archive_base : String
deriving DecidableEq, Repr

/-- The job record returned by `report.ResultsSerializer(...).job_info`,
the tracking/serialization layer's view of the finished job.  `status` is
the final recorded status as read by `teuthology.job_status.get_status`;
`archive` is the recorded archive map (phase name → remote path), absent
when the job recorded none. -/
structure JobInfo where
  status : String
  targets : List (String × String)
  owner : String
  archive_path : String
  archive : Option (List (String × String))
deriving DecidableEq, Repr

/-- One entry of `teuthology.lock.query.get_statuses`: a machine's live
lock state as reported by the remote resource client. -/
structure MachineStatus where
  name : String
  locked : Bool
deriving DecidableEq, Repr

/-- The slice of the filesystem the embedded code touches: a set of
existing directories and a set of existing files, a file being a pair of
its directory and its name (`os.listdir` returns names, `os.remove` takes
the joined path). -/
structure FS where
  dirs : List String
  files : List (String × String)
deriving DecidableEq, Repr

/-- `os.listdir d`: the names of the files sitting in directory `d`. -/
def FS.listdir (fs : FS) (d : String) : List String :=
  (fs.files.filter (fun p => p.1 == d)).map (fun p => p.2)

/-- Removing every file of directory `d` and then the directory itself
(the `os.remove` loop followed by `os.rmdir` in the boundary path). -/
def FS.removeDirTree (fs : FS) (d : String) : FS :=
  { dirs := fs.dirs.filter (fun x => x != d),
    files := fs.files.filter (fun p => p.1 != d) }

/-- `safepath.makedirs`: create the directory if it does not exist. -/
def FS.addDir (fs : FS) (d : String) : FS :=
  if d ∈ fs.dirs then fs else { fs with dirs := d :: fs.dirs }

/-- The observable actions of the embedded code, in program order.
`pushStatus none` is a heartbeat (`try_push_job_info` with no status);
`spawn args ownPgrp` is a `subprocess.Popen`, `ownPgrp` true when spawned
with `preexec_fn=os.setpgrp`; `persistConfig` is the supervisor writing the
updated descriptor back to the job-config file, `writeTempConfig` the
worker dumping it to a fresh temporary file; `watchdog` / `sleepWait` mark
which waiting mode `run_job` entered; `assertionFailed` is the fatal
retired-branch assertion firing. -/
inductive Event where
  | pushStatus (st : Option String)
  | deleteJobs
  | spawn (args : List String) (ownPgrp : Bool)
  | removeFile (dir name : String)
  | rmdir (d : String)
  | mkdir (d : String)
  | makedirs (d : String)
  | reimage (targets : List (String × String)) (machineType : String)
  | persistConfig (cfg : JobConfig)
  | writeTempConfig (cfg : JobConfig)
  | watchdog
  | sleepWait
  | symlinkWorkerLog
  | unlockStep
  | transferArchives
  | killJob
  | assertionFailed
  | compress (dir : String)
  | pull (host src dest : String) (ok : Bool)
  | unlockOne (machine owner archivePath : String)
  | nuke (targets : List (String × String))
deriving DecidableEq, Repr

/-! ## The watchdog (`run_with_watchdog`, supervisor lines 199–235, worker
lines 171–208)

The loop is driven by a schedule: one entry per poll of the still-running
subprocess, carrying the elapsed whole seconds (`run_time.days*60*60*24 +
run_time.seconds`) observed at that iteration; after the schedule is
exhausted, `process.poll()` reports exit.  `maxT` is
`teuth_config.max_job_time`. -/

/-- The retired legacy branch names of the post-loop assertion. -/
def retired_branches : List String :=
  ["argonaut", "bobtail", "cuttlefish", "dumpling"]

/-- One pass of the `while process.poll() is None` body: kill block when
over budget, then the status-less heartbeat push. -/
def watchdog_iter (maxT elapsed : Nat) : List Event :=
  (if maxT < elapsed then [Event.transferArchives, Event.killJob] else [])
    ++ [Event.pushStatus none]

/-- The whole polling loop over the schedule. -/
def watchdog_loop (maxT : Nat) : List Nat → List Event
  | [] => []
  | e :: rest => watchdog_iter maxT e ++ watchdog_loop maxT rest

/-- After the loop: the retired-branch assertion, then (when it holds) the
unconditional `dead` push. -/
def watchdog_tail (cfg : JobConfig) : List Event :=
  if (∃ b ∈ retired_branches, cfg.teuthology_branch = some b) then
    [Event.assertionFailed]
  else
    [Event.pushStatus (some "dead")]

/-- `supervisor.run_with_watchdog`: initial sleep (no event), the polling
loop, the assertion, the `dead` push. -/
def Supervisor.run_with_watchdog (cfg : JobConfig) (maxT : Nat)
    (sched : List Nat) : List Event :=
  watchdog_loop maxT sched ++ watchdog_tail cfg

/-- `worker.run_with_watchdog`: identical to the supervisor's, except that
the worker symlinks its own log into the archive right after the initial
sleep, before entering the loop. -/
def Worker.run_with_watchdog (cfg : JobConfig) (maxT : Nat)
    (sched : List Nat) : List Event :=
  Event.symlinkWorkerLog :: (watchdog_loop maxT sched ++ watchdog_tail cfg)

/-- Number of upward crossings of the budget `maxT` along an elapsed-time
schedule that starts below it (elapsed time is 0 at watchdog start). -/
def crossings (maxT : Nat) : Nat → List Nat → Nat
  | _, [] => 0
  | prev, e :: rest =>
      (if prev ≤ maxT ∧ maxT < e then 1 else 0) + crossings maxT e rest

/-! ## The reimage step (`reimage_machines`, supervisor lines 163–173,
worker lines 245–255)

`reimage_many` is an external call; `reimaged` is its result.  The
function returns the updated descriptor (the code mutates
`ctx.config['targets']`, which aliases `job_config`) and the trace. -/

/-- `supervisor.reimage_machines`: push `waiting`, reimage, replace the
target mapping, push `running`. -/
def Supervisor.reimage_machines (cfg : JobConfig)
    (reimaged : List (String × String)) : JobConfig × List Event :=
  ({ cfg with targets := some reimaged },
   [Event.pushStatus (some "waiting"),
    Event.reimage (cfg.targets.getD []) cfg.machine_type,
    Event.pushStatus (some "running")])

/-- `worker.reimage_machines`: push `waiting`, reimage, replace the target
mapping, then — although its final comment reads "change the status to
running after the reimaging process" — push `waiting` again (worker.py
line 255). -/
def Worker.reimage_machines (cfg : JobConfig)
    (reimaged : List (String × String)) : JobConfig × List Event :=
  ({ cfg with targets := some reimaged },
   [Event.pushStatus (some "waiting"),
    Event.reimage (cfg.targets.getD []) cfg.machine_type,
    Event.pushStatus (some "waiting")])

/-! ## The unlock/nuke step (`unlock_targets`, supervisor lines 176–196)

`info` is the serializer's record of the finished job (the source of
truth for status, targets, owner and archive path); `machineStatus` is the
result of `query.get_statuses(info['targets'].keys())`; `shortname` is
`misc.decanonicalize_hostname`, an external pure renaming. -/

/-- `supervisor.unlock_targets`, translated line by line: compute the
currently-locked machines; no-op when none; unlock each locked machine when
the status is `pass` or (`unlock_on_failure` and not `nuke-on-error`);
nuke (over the descriptor's full target mapping) when the status is not
`pass` and `nuke-on-error` is set. -/
def Supervisor.unlock_targets (shortname : String → String)
    (cfg : JobConfig) (info : JobInfo)
    (machineStatus : List MachineStatus) : List Event :=
  let locked := (machineStatus.filter (fun m => m.locked)).map
      (fun m => shortname m.name)
  if locked = [] then []
  else
    (if info.status = "pass" ∨ (cfg.unlock_on_failure ∧ ¬ cfg.nuke_on_error)
     then locked.map (fun m => Event.unlockOne m info.owner info.archive_path)
     else [])
    ++
    (if info.status ≠ "pass" ∧ cfg.nuke_on_error
     then [Event.nuke (cfg.targets.getD [])]
     else [])

/-! ## Job dispatch (`run_job`, supervisor lines 68–160, worker lines
67–168)

The aggregator argument list of the boundary path is textually identical
in the two files, so it is shared.  `munge` is `safepath.munge`, an
external pure path sanitizer. -/

/-- The `teuthology-results` argument list built by the boundary branch of
both `run_job`s: base arguments, then seed/subset for a first-in-suite
job, else timeout plus optional email. -/
def boundary_args (cfg : JobConfig) (tc : TeuthConfig)
    (teuth_bin_path archive_dir : String) (munge : String → String) :
    List String :=
  let suite_archive_dir := pjoin archive_dir (munge cfg.name)
  [pjoin teuth_bin_path "teuthology-results",
   "--archive-dir", suite_archive_dir,
   "--name", cfg.name]
  ++
  (if cfg.first_in_suite then
    (match cfg.seed with | some s => ["--seed", s] | none => [])
    ++ (match cfg.subset with | some s => ["--subset", s] | none => [])
  else
    ["--timeout", cfg.results_timeout.getD tc.results_timeout]
    ++ (match cfg.email with | some e => ["--email", e] | none => []))

/-- The execution-subprocess argument list built by the non-boundary
branch of `supervisor.run_job`. -/
def Supervisor.exec_args (cfg : JobConfig) (teuth_bin_path : String)
    (verbose : Bool) : List String :=
  [pjoin teuth_bin_path "teuthology"]
  ++ (if verbose || cfg.verbose then ["-v"] else [])
  ++ ["--owner", cfg.owner,
      "--archive", cfg.archive_path,
      "--name", cfg.name]
  ++ (match cfg.description with
      | some d => ["--description", d]
      | none => [])
  ++ ["--", pjoin cfg.archive_path "orig.config.yaml"]

/-- `supervisor.run_job`.  Boundary branch: best-effort delete of prior
tracker rows (when a results server is configured), spawn the aggregator in
its own process group, then delete every file of the job's archive
directory and the directory itself.  Non-boundary branch: spawn the
execution subprocess, run the watchdog (results server configured) or
sleep-and-wait, then the unlock/nuke step when the descriptor carries
targets.  The legacy nested-config merge (lines 115–121) normalizes the
descriptor in place and is outside every claim; descriptors here are taken
as already normalized. -/
def Supervisor.run_job (cfg : JobConfig) (tc : TeuthConfig)
    (teuth_bin_path archive_dir : String) (verbose : Bool)
    (munge : String → String) (fs : FS) : List Event × FS :=
  if cfg.first_in_suite || cfg.last_in_suite then
    ((if tc.results_server then [Event.deleteJobs] else [])
      ++ [Event.spawn (boundary_args cfg tc teuth_bin_path archive_dir munge) true]
      ++ ((fs.listdir cfg.archive_path).map
            (fun f => Event.removeFile cfg.archive_path f))
      ++ [Event.rmdir cfg.archive_path],
     fs.removeDirTree cfg.archive_path)
  else
    ([Event.spawn (Supervisor.exec_args cfg teuth_bin_path verbose) false]
      ++ (if tc.results_server then [Event.watchdog] else [Event.sleepWait])
      ++ (if cfg.targets.isSome then [Event.unlockStep] else []),
     fs)

/-- The execution-subprocess argument list built by the non-boundary
branch of `worker.run_job` (it adds `--unlock`, and the trailing path is a
fresh temporary file rather than `orig.config.yaml`; the temporary file's
name is abstracted away, the write itself is the `writeTempConfig`
event). -/
def Worker.exec_args (cfg : JobConfig) (teuth_bin_path : String)
    (verbose : Bool) (tmpName : String) : List String :=
  [pjoin teuth_bin_path "teuthology"]
  ++ (if verbose || cfg.verbose then ["-v"] else [])
  ++ ["--unlock",
      "--owner", cfg.owner,
      "--archive", cfg.archive_path,
      "--name", cfg.name]
  ++ (match cfg.description with
      | some d => ["--description", d]
      | none => [])
  ++ ["--", tmpName]

/-- `worker.run_job`.  Boundary branch: best-effort delete of prior rows,
create the suite archive directory, spawn the aggregator in its own
process group, and return — the job's archive directory is not touched.
Non-boundary branch: create the job archive directory, dump the descriptor
to a temporary file, spawn the execution subprocess, then watchdog or
sleep-symlink-wait; the worker has no unlock/nuke step. -/
def Worker.run_job (cfg : JobConfig) (tc : TeuthConfig)
    (teuth_bin_path archive_dir : String) (verbose : Bool)
    (munge : String → String) (tmpName : String) (fs : FS) :
    List Event × FS :=
  if cfg.first_in_suite || cfg.last_in_suite then
    let suite_archive_dir := pjoin archive_dir (munge cfg.name)
    ((if tc.results_server then [Event.deleteJobs] else [])
      ++ [Event.makedirs suite_archive_dir]
      ++ [Event.spawn (boundary_args cfg tc teuth_bin_path archive_dir munge) true],
     fs.addDir suite_archive_dir)
  else
    ([Event.makedirs cfg.archive_path]
      ++ [Event.writeTempConfig cfg]
      ++ [Event.spawn (Worker.exec_args cfg teuth_bin_path verbose tmpName) false]
      ++ (if tc.results_server then [Event.watchdog]
          else [Event.sleepWait, Event.symlinkWorkerLog]),
     fs.addDir cfg.archive_path)

/-! ## The controller entry points (`main`, supervisor lines 31–65, worker
lines 27–64), modelled from the reimage step onward (argument parsing,
config loading and log setup are out of scope). -/

/-- `supervisor.main`: when the descriptor carries targets, run the reimage
step and write the updated descriptor back to the job-config file
(`yaml.safe_dump` to `config_file_path`) before `run_job`. -/
def Supervisor.main (cfg : JobConfig) (reimaged : List (String × String))
    (tc : TeuthConfig) (teuth_bin_path archive_dir : String)
    (verbose : Bool) (munge : String → String) (fs : FS) :
    List Event × FS :=
  let (cfg', pre) :=
    if cfg.targets.isSome then
      let (c, e) := Supervisor.reimage_machines cfg reimaged
      (c, e ++ [Event.persistConfig c])
    else (cfg, [])
  let (evs, fs') := Supervisor.run_job cfg' tc teuth_bin_path archive_dir
      verbose munge fs
  (pre ++ evs, fs')

/-- `worker.main`: when the descriptor carries targets, run the (worker)
reimage step; nothing is written back to the job-config storage — the
descriptor was read from a file descriptor and the updated copy only
reaches the execution subprocess through `run_job`'s temporary file. -/
def Worker.main (cfg : JobConfig) (reimaged : List (String × String))
    (tc : TeuthConfig) (teuth_bin_path archive_dir : String)
    (verbose : Bool) (munge : String → String) (tmpName : String)
    (fs : FS) : List Event × FS :=
  let (cfg', pre) :=
    if cfg.targets.isSome then
      let (c, e) := Worker.reimage_machines cfg reimaged
      (c, e)
    else (cfg, [])
  let (evs, fs') := Worker.run_job cfg' tc teuth_bin_path archive_dir
      verbose munge tmpName fs
  (pre ++ evs, fs')

/-! ## Archive transfer (`transfer_archives`/`archive_logs`, supervisor
lines 262–294; `transfer_archives`, worker lines 219–242)

`pullOk host src` is whether `pull_directory(remote, src, ...)` succeeds;
`false` stands for it raising `tarfile.ReadError` (a missing or corrupt
remote archive).  `remotes` is `ctx.cluster.remotes.keys()` after
`add_remotes`, already in shortname form.  `dirs` threads the set of
directories that exist under the job archive. -/

/-- The per-host loop of `supervisor.archive_logs`: create the per-host
subdirectory when missing, then pull `remote_path` into
`pjoin sub log_path`; a `ReadError` (recorded as `ok = false`) is swallowed
per host and the loop goes on. -/
def Supervisor.archive_logs_hosts (pullOk : String → String → Bool)
    (path remote_path log_path : String) :
    List String → List String → List Event × List String
  | dirs, [] => ([], dirs)
  | dirs, remote :: rest =>
      let sub := pjoin path remote
      let mk : List Event × List String :=
        if sub ∈ dirs then ([], dirs)
        else ([Event.makedirs sub], sub :: dirs)
      let next := Supervisor.archive_logs_hosts pullOk path remote_path
          log_path mk.2 rest
      (mk.1
        ++ [Event.pull remote remote_path (pjoin sub log_path)
              (pullOk remote remote_path)]
        ++ next.1,
       next.2)

/-- `supervisor.archive_logs`: ensure `<archive>/remote` exists, then run
the per-host loop. -/
def Supervisor.archive_logs (remotes : List String)
    (pullOk : String → String → Bool) (archive remote_path log_path : String)
    (dirs : List String) : List Event × List String :=
  let path := pjoin archive "remote"
  let start : List Event × List String :=
    if path ∈ dirs then ([], dirs) else ([Event.mkdir path], path :: dirs)
  let rest := Supervisor.archive_logs_hosts pullOk path remote_path log_path
      start.2 remotes
  (start.1 ++ rest.1, rest.2)

/-- The phase loop of `supervisor.transfer_archives`: for each entry of
the recorded archive map, rename the phase `init` to the empty component
(the per-host root), compress, then `archive_logs`. -/
def Supervisor.transfer_phases (remotes : List String)
    (pullOk : String → String → Bool) (archive : String) :
    List String → List (String × String) → List Event × List String
  | dirs, [] => ([], dirs)
  | dirs, p :: rest =>
      let log_type := if p.1 = "init" then "" else p.1
      let step := Supervisor.archive_logs remotes pullOk archive p.2
          log_type dirs
      let next := Supervisor.transfer_phases remotes pullOk archive
          step.2 rest
      (Event.compress p.2 :: step.1 ++ next.1, next.2)

/-- `supervisor.transfer_archives`: when the serializer's record carries an
archive map, run the phase loop; otherwise only log. -/
def Supervisor.transfer_archives (info : JobInfo) (remotes : List String)
    (pullOk : String → String → Bool) (archive : String)
    (dirs : List String) : List Event × List String :=
  match info.archive with
  | none => ([], dirs)
  | some m => Supervisor.transfer_phases remotes pullOk archive dirs m

/-- The inner phase loop of `worker.transfer_archives` for one host:
`pull_directory` is not guarded, so the first failing pull raises and the
remaining phases of this host are not attempted (`false` in the result
means the loop was aborted by the exception). -/
def Worker.pull_phases (remote : String)
    (pullOk : String → String → Bool) (sub : String) :
    List (String × String) → List Event × Bool
  | [] => ([], true)
  | p :: rest =>
      let log_type := if p.1 = "init" then "" else p.1
      if pullOk remote p.2 then
        let next := Worker.pull_phases remote pullOk sub rest
        (Event.pull remote p.2 (pjoin sub log_type) true :: next.1, next.2)
      else
        ([Event.pull remote p.2 (pjoin sub log_type) false], false)

/-- The outer host loop of `worker.transfer_archives`: `os.makedirs`
failures are swallowed (`except OSError: pass`), but an exception escaping
the phase loop aborts the remaining hosts too. -/
def Worker.pull_hosts (pullOk : String → String → Bool) (path : String)
    (m : List (String × String)) : List String → List Event × Bool
  | [] => ([], true)
  | remote :: rest =>
      let sub := pjoin path remote
      let phases := Worker.pull_phases remote pullOk sub m
      if phases.2 then
        let next := Worker.pull_hosts pullOk path m rest
        (Event.makedirs sub :: phases.1 ++ next.1, next.2)
      else
        (Event.makedirs sub :: phases.1, false)

/-- `worker.transfer_archives`: when the record carries an archive map,
ensure `<archive>/remote` exists and run the host loop; the `Bool` is
whether the transfer ran to completion rather than being aborted by an
unhandled `ReadError`. -/
def Worker.transfer_archives (info : JobInfo) (remotes : List String)
    (pullOk : String → String → Bool) (archive : String)
    (dirs : List String) : List Event × Bool :=
  match info.archive with
  | none => ([], true)
  | some m =>
      let path := pjoin archive "remote"
      let start : List Event :=
        if path ∈ dirs then [] else [Event.mkdir path]
      let hosts := Worker.pull_hosts pullOk path m remotes
      (start ++ hosts.1, hosts.2)

/-- The pull events of a trace, projected to (host, source, destination) —
what was attempted, forgetting whether it succeeded. -/
def pullsOf : List Event → List (String × String × String)
  | [] => []
  | Event.pull h s d _ :: rest => (h, s, d) :: pullsOf rest
  | _ :: rest => pullsOf rest

/-! ## Trace predicates and helper lemmas -/

/-- Is the event a `subprocess.Popen`? -/
def isSpawn : Event → Bool
  | Event.spawn _ _ => true
  | _ => false

/-- Is the event a write of the descriptor back to the job-config file? -/
def isPersist : Event → Bool
  | Event.persistConfig _ => true
  | _ => false

/-- Is the event a deletion on disk (`os.remove` / `os.rmdir`)? -/
def isFsDelete : Event → Bool
  | Event.removeFile _ _ => true
  | Event.rmdir _ => true
  | _ => false

/-- Every `killJob` of the trace is immediately preceded by a
`transferArchives`. -/
def killsOk : List Event → Bool
  | [] => true
  | Event.transferArchives :: Event.killJob :: rest => killsOk rest
  | Event.killJob :: _ => false
  | _ :: rest => killsOk rest

theorem pullsOf_append (a b : List Event) :
    pullsOf (a ++ b) = pullsOf a ++ pullsOf b := by
  induction a with
  | nil => rfl
  | cons x rest ih => cases x <;> simp [pullsOf, ih]

theorem filter_isSpawn_append (a b : List Event) :
    (a ++ b).filter isSpawn = a.filter isSpawn ++ b.filter isSpawn :=
  List.filter_append a b

theorem watchdog_loop_count_kill (maxT : Nat) (sched : List Nat) :
    (watchdog_loop maxT sched).count Event.killJob
      = (sched.filter (fun e => maxT < e)).length := by
  induction sched with
  | nil => rfl
  | cons e rest ih =>
      by_cases h : maxT < e <;>
        simp [watchdog_loop, watchdog_iter, h, List.count_append, ih,
          List.count_cons, List.filter_cons]

theorem watchdog_loop_count_hb (maxT : Nat) (sched : List Nat) :
    (watchdog_loop maxT sched).count (Event.pushStatus none) = sched.length := by
  induction sched with
  | nil => rfl
  | cons e rest ih =>
      by_cases h : maxT < e <;>
        simp [watchdog_loop, watchdog_iter, h, List.count_append, ih,
          List.count_cons]

theorem watchdog_loop_count_dead (maxT : Nat) (sched : List Nat) :
    (watchdog_loop maxT sched).count (Event.pushStatus (some "dead")) = 0 := by
  induction sched with
  | nil => rfl
  | cons e rest ih =>
      by_cases h : maxT < e <;>
        simp [watchdog_loop, watchdog_iter, h, List.count_append, ih,
          List.count_cons]

theorem watchdog_loop_not_assertionFailed (maxT : Nat) (sched : List Nat) :
    Event.assertionFailed ∉ watchdog_loop maxT sched := by
  induction sched with
  | nil => simp [watchdog_loop]
  | cons e rest ih =>
      by_cases h : maxT < e <;>
        simp [watchdog_loop, watchdog_iter, h, ih]

theorem killsOk_loop_append (maxT : Nat) (sched : List Nat) (t : List Event) :
    killsOk (watchdog_loop maxT sched ++ t) = killsOk t := by
  induction sched with
  | nil => simp [watchdog_loop]
  | cons e rest ih =>
      by_cases h : maxT < e <;>
        simp [watchdog_loop, watchdog_iter, h, killsOk, ih]

theorem watchdog_tail_of_not_retired (cfg : JobConfig)
    (h : ∀ b ∈ retired_branches, cfg.teuthology_branch ≠ some b) :
    watchdog_tail cfg = [Event.pushStatus (some "dead")] := by
  unfold watchdog_tail
  rw [if_neg]
  rintro ⟨b, hb, he⟩
  exact h b hb he

theorem watchdog_tail_of_retired (cfg : JobConfig)
    (h : ∃ b ∈ retired_branches, cfg.teuthology_branch = some b) :
    watchdog_tail cfg = [Event.assertionFailed] := by
  unfold watchdog_tail
  rw [if_pos h]

/-! ## Sample data used by witnesses and counterexamples -/

/-- A teuth_config with a results server configured. -/
def tcOn : TeuthConfig :=
  { results_server := true, results_timeout := "21600", archive_base := "/ab" }

/-- A plain descriptor all sample jobs derive from. -/
def baseCfg : JobConfig :=
  { name := "run-a", job_id := "1", owner := "own", archive_path := "/a/1",
    machine_type := "mt", description := none, verbose := false,
    targets := some [("t1", "k1"), ("t2", "k2")],
    first_in_suite := false, last_in_suite := false,
    seed := none, subset := none, email := none, results_timeout := none,
    unlock_on_failure := false, nuke_on_error := false,
    teuthology_branch := none }

/-- An empty filesystem slice. -/
def fs0 : FS := { dirs := [], files := [] }

/-! ## The claims -/

/-- C1: the unlock/nuke step.  When no target is currently locked it is a
no-op; otherwise it unlocks each currently-locked target when the final
recorded status is `pass`, unlocks each currently-locked target when the
status is not `pass` with `unlock_on_failure` and without `nuke_on_error`,
nukes the entire original target set when the status is not `pass` with
`nuke_on_error`, and does nothing when the status is not `pass` with
neither flag. -/
theorem C1_unlock_nuke_decision (shortname : String → String)
    (cfg : JobConfig) (info : JobInfo) (ms : List MachineStatus) :
    ((((ms.filter (fun m => m.locked)).map (fun m => shortname m.name)) = []) →
      Supervisor.unlock_targets shortname cfg info ms = [])
    ∧ ((((ms.filter (fun m => m.locked)).map (fun m => shortname m.name)) ≠ []) →
        (info.status = "pass" →
          Supervisor.unlock_targets shortname cfg info ms
            = ((ms.filter (fun m => m.locked)).map (fun m => shortname m.name)).map
                (fun m => Event.unlockOne m info.owner info.archive_path))
        ∧ (info.status ≠ "pass" → cfg.unlock_on_failure = true →
            cfg.nuke_on_error = false →
          Supervisor.unlock_targets shortname cfg info ms
            = ((ms.filter (fun m => m.locked)).map (fun m => shortname m.name)).map
                (fun m => Event.unlockOne m info.owner info.archive_path))
        ∧ (info.status ≠ "pass" → cfg.nuke_on_error = true →
          Supervisor.unlock_targets shortname cfg info ms
            = [Event.nuke (cfg.targets.getD [])])
        ∧ (info.status ≠ "pass" → cfg.unlock_on_failure = false →
            cfg.nuke_on_error = false →
          Supervisor.unlock_targets shortname cfg info ms = [])) := by
  constructor
  · intro h
    simp [Supervisor.unlock_targets, h]
  · intro hne
    refine ⟨?_, ?_, ?_, ?_⟩
    · intro hp
      simp [Supervisor.unlock_targets, hne, hp]
    · intro hp hu hn
      simp [Supervisor.unlock_targets, hne, hp, hu, hn]
    · intro hp hn
      simp [Supervisor.unlock_targets, hne, hp, hn]
    · intro hp hu hn
      simp [Supervisor.unlock_targets, hne, hp, hu, hn]

/-- Witness for C1 at concrete inputs: a failed job with
`unlock_on_failure` and no `nuke_on_error`, both machines still locked,
yields exactly the two independent unlocks. -/
theorem C1_unlock_nuke_decision_witness :
    Supervisor.unlock_targets (fun s => s)
        { baseCfg with unlock_on_failure := true }
        { status := "fail", targets := [("t1", "k1"), ("t2", "k2")],
          owner := "own", archive_path := "/a/1", archive := none }
        [⟨"t1", true⟩, ⟨"t2", true⟩]
      = [Event.unlockOne "t1" "own" "/a/1", Event.unlockOne "t2" "own" "/a/1"] := by
  have h := C1_unlock_nuke_decision (fun s => s)
      { baseCfg with unlock_on_failure := true }
      { status := "fail", targets := [("t1", "k1"), ("t2", "k2")],
        owner := "own", archive_path := "/a/1", archive := none }
      [⟨"t1", true⟩, ⟨"t2", true⟩]
  exact (h.2 (by decide)).2.1 (by decide) (by decide) (by decide)

/-- C2 (counterexample): with a budget of 10 s and a subprocess still
running when the watchdog polls at elapsed 11 s and 12 s, the kill path is
invoked twice for a single elapsed-time crossing of the budget — the code
kills on every poll tick past the budget, not once per crossing. -/
theorem C2_counterexample :
    (Supervisor.run_with_watchdog baseCfg 10 [11, 12]).count Event.killJob = 2
    ∧ crossings 10 0 [11, 12] = 1 := by
  decide

/-- C2 (amended): the kill path is invoked once per poll iteration whose
elapsed seconds exceed the budget — hence repeatedly while the subprocess
stays alive past the crossing — and, once the subprocess handle reports
exit (and the retired-branch assertion passes), a `dead` status is pushed
as the final event.  Both watchdog versions. -/
theorem C2_kill_per_tick_then_dead (cfg : JobConfig) (maxT : Nat)
    (sched : List Nat)
    (h : ∀ b ∈ retired_branches, cfg.teuthology_branch ≠ some b) :
    (Supervisor.run_with_watchdog cfg maxT sched).count Event.killJob
        = (sched.filter (fun e => maxT < e)).length
    ∧ (Worker.run_with_watchdog cfg maxT sched).count Event.killJob
        = (sched.filter (fun e => maxT < e)).length
    ∧ (Supervisor.run_with_watchdog cfg maxT sched).getLast?
        = some (Event.pushStatus (some "dead")) := by
  have ht := watchdog_tail_of_not_retired cfg h
  unfold Supervisor.run_with_watchdog Worker.run_with_watchdog
  rw [ht]
  refine ⟨?_, ?_, ?_⟩
  · simp [List.count_append, watchdog_loop_count_kill]
  · simp [List.count_cons, List.count_append, watchdog_loop_count_kill]
  · exact List.getLast?_concat _

/-- Witness for C2 (amended) at a concrete run: polls at 5 s, 11 s and
12 s against a 10 s budget give two kill invocations and a final `dead`
push. -/
theorem C2_kill_per_tick_then_dead_witness :
    (Supervisor.run_with_watchdog baseCfg 10 [5, 11, 12]).count Event.killJob = 2
    ∧ (Supervisor.run_with_watchdog baseCfg 10 [5, 11, 12]).getLast?
        = some (Event.pushStatus (some "dead")) := by
  have h := C2_kill_per_tick_then_dead baseCfg 10 [5, 11, 12] (by decide)
  exact ⟨h.1.trans (by decide), h.2.2⟩

/-- C4: in every over-budget iteration the archive transfer is performed
immediately before the kill invocation; the loop does not break on kill
(one heartbeat per poll, however many kills happened); and once the
subprocess handle reports exit a terminal `dead` status is pushed exactly
once, as the last event — provided the retired-branch assertion passes.
Stated for both watchdog versions. -/
theorem C4_transfer_before_kill_and_single_dead (cfg : JobConfig)
    (maxT : Nat) (sched : List Nat)
    (h : ∀ b ∈ retired_branches, cfg.teuthology_branch ≠ some b) :
    killsOk (Supervisor.run_with_watchdog cfg maxT sched) = true
    ∧ killsOk (Worker.run_with_watchdog cfg maxT sched) = true
    ∧ (Supervisor.run_with_watchdog cfg maxT sched).count (Event.pushStatus none)
        = sched.length
    ∧ (Supervisor.run_with_watchdog cfg maxT sched).count
        (Event.pushStatus (some "dead")) = 1
    ∧ (Supervisor.run_with_watchdog cfg maxT sched).getLast?
        = some (Event.pushStatus (some "dead")) := by
  have ht := watchdog_tail_of_not_retired cfg h
  unfold Supervisor.run_with_watchdog Worker.run_with_watchdog
  rw [ht]
  refine ⟨?_, ?_, ?_, ?_, ?_⟩
  · rw [killsOk_loop_append]
    rfl
  · show killsOk (watchdog_loop maxT sched ++ [Event.pushStatus (some "dead")])
        = true
    rw [killsOk_loop_append]
    rfl
  · simp [List.count_append, watchdog_loop_count_hb]
  · simp [List.count_append, watchdog_loop_count_dead]
  · exact List.getLast?_concat _

/-- Witness for C4 at a concrete run: polls at 11 s and 12 s against a
10 s budget. -/
theorem C4_transfer_before_kill_and_single_dead_witness :
    killsOk (Supervisor.run_with_watchdog baseCfg 10 [11, 12]) = true
    ∧ (Supervisor.run_with_watchdog baseCfg 10 [11, 12]).count
        (Event.pushStatus (some "dead")) = 1 := by
  have h := C4_transfer_before_kill_and_single_dead baseCfg 10 [11, 12]
      (by decide)
  exact ⟨h.1, h.2.2.2.1⟩

/-- C9: after the polling loop, the watchdog asserts that the job's
teuthology branch is none of the retired identifiers: when the branch is
retired the run ends fatally in the assertion and no `dead` status is
pushed; otherwise the assertion never fires and the run ends with the
`dead` push.  Stated for both watchdog versions. -/
theorem C9_retired_branch_assertion (cfg : JobConfig) (maxT : Nat)
    (sched : List Nat) :
    ((∃ b ∈ retired_branches, cfg.teuthology_branch = some b) →
      (Supervisor.run_with_watchdog cfg maxT sched).getLast?
          = some Event.assertionFailed
      ∧ Event.pushStatus (some "dead") ∉ Supervisor.run_with_watchdog cfg maxT sched
      ∧ (Worker.run_with_watchdog cfg maxT sched).getLast?
          = some Event.assertionFailed)
    ∧ ((∀ b ∈ retired_branches, cfg.teuthology_branch ≠ some b) →
      Event.assertionFailed ∉ Supervisor.run_with_watchdog cfg maxT sched
      ∧ Event.assertionFailed ∉ Worker.run_with_watchdog cfg maxT sched
      ∧ (Supervisor.run_with_watchdog cfg maxT sched).getLast?
          = some (Event.pushStatus (some "dead"))) := by
  constructor
  · intro h
    have ht := watchdog_tail_of_retired cfg h
    unfold Supervisor.run_with_watchdog Worker.run_with_watchdog
    rw [ht]
    refine ⟨List.getLast?_concat _, ?_, ?_⟩
    · intro hmem
      rcases List.mem_append.mp hmem with hl | hr
      · exact (List.count_eq_zero.mp (watchdog_loop_count_dead maxT sched)) hl
      · simp at hr
    · show ((Event.symlinkWorkerLog :: watchdog_loop maxT sched)
          ++ [Event.assertionFailed]).getLast?
          = some Event.assertionFailed
      exact List.getLast?_concat _
  · intro h
    have ht := watchdog_tail_of_not_retired cfg h
    unfold Supervisor.run_with_watchdog Worker.run_with_watchdog
    rw [ht]
    refine ⟨?_, ?_, List.getLast?_concat _⟩
    · intro hmem
      rcases List.mem_append.mp hmem with hl | hr
      · exact watchdog_loop_not_assertionFailed maxT sched hl
      · simp at hr
    · intro hmem
      rcases List.mem_cons.mp hmem with hl | hr
      · exact Event.noConfusion hl
      · rcases List.mem_append.mp hr with h1 | h2
        · exact watchdog_loop_not_assertionFailed maxT sched h1
        · simp at h2

/-- Witness for C9 at concrete inputs: a descriptor on branch `bobtail`
ends in the assertion with no `dead` push, and the plain descriptor ends
in the `dead` push with no assertion. -/
theorem C9_retired_branch_assertion_witness :
    ((Supervisor.run_with_watchdog
        { baseCfg with teuthology_branch := some "bobtail" } 10 [5]).getLast?
      = some Event.assertionFailed)
    ∧ Event.assertionFailed ∉ Supervisor.run_with_watchdog baseCfg 10 [5] := by
  constructor
  · exact ((C9_retired_branch_assertion
        { baseCfg with teuthology_branch := some "bobtail" } 10 [5]).1
        (by decide)).1
  · exact ((C9_retired_branch_assertion baseCfg 10 [5]).2 (by decide)).1

/-- C3 (code bug in the worker): both reimage steps push `waiting`, call
reimage and replace the target mapping, but the status the supervisor then
pushes is `running` while the worker — against its own comment — pushes
`waiting` again. -/
theorem C3_reimage_status_pushes :
    (Supervisor.reimage_machines baseCfg [("t1", "k1a"), ("t2", "k2a")]).2
      = [Event.pushStatus (some "waiting"),
         Event.reimage [("t1", "k1"), ("t2", "k2")] "mt",
         Event.pushStatus (some "running")]
    ∧ (Worker.reimage_machines baseCfg [("t1", "k1a"), ("t2", "k2a")]).2
      = [Event.pushStatus (some "waiting"),
         Event.reimage [("t1", "k1"), ("t2", "k2")] "mt",
         Event.pushStatus (some "waiting")]
    ∧ (Supervisor.reimage_machines baseCfg [("t1", "k1a"), ("t2", "k2a")]).1.targets
      = some [("t1", "k1a"), ("t2", "k2a")]
    ∧ (Worker.reimage_machines baseCfg [("t1", "k1a"), ("t2", "k2a")]).1.targets
      = some [("t1", "k1a"), ("t2", "k2a")] := by
  exact ⟨rfl, rfl, rfl, rfl⟩

/-- C5: for a boundary job, both dispatchers spawn no execution subprocess
and run no watchdog; the single spawned subprocess is the aggregator
(`teuthology-results`, a different binary than `teuthology`), in its own
process group, with seed/subset arguments (when present) for a
first-in-suite job and timeout plus optional email arguments otherwise. -/
theorem C5_boundary_dispatch (cfg : JobConfig) (tc : TeuthConfig)
    (bin adir : String) (verbose : Bool) (munge : String → String)
    (tmp : String) (fs : FS)
    (h : cfg.first_in_suite = true ∨ cfg.last_in_suite = true) :
    (Supervisor.run_job cfg tc bin adir verbose munge fs).1.filter isSpawn
        = [Event.spawn (boundary_args cfg tc bin adir munge) true]
    ∧ (Worker.run_job cfg tc bin adir verbose munge tmp fs).1.filter isSpawn
        = [Event.spawn (boundary_args cfg tc bin adir munge) true]
    ∧ Event.watchdog ∉ (Supervisor.run_job cfg tc bin adir verbose munge fs).1
    ∧ Event.watchdog ∉ (Worker.run_job cfg tc bin adir verbose munge tmp fs).1
    ∧ pjoin bin "teuthology-results" ≠ pjoin bin "teuthology"
    ∧ (cfg.first_in_suite = true →
        boundary_args cfg tc bin adir munge
          = [pjoin bin "teuthology-results",
             "--archive-dir", pjoin adir (munge cfg.name),
             "--name", cfg.name]
            ++ (match cfg.seed with | some s => ["--seed", s] | none => [])
            ++ (match cfg.subset with | some s => ["--subset", s] | none => []))
    ∧ (cfg.first_in_suite = false →
        boundary_args cfg tc bin adir munge
          = [pjoin bin "teuthology-results",
             "--archive-dir", pjoin adir (munge cfg.name),
             "--name", cfg.name]
            ++ ["--timeout", cfg.results_timeout.getD tc.results_timeout]
            ++ (match cfg.email with
                | some e => ["--email", e]
                | none => [])) := by
  have hb : (cfg.first_in_suite || cfg.last_in_suite) = true := by
    rcases h with h | h <;> simp [h]
  refine ⟨?_, ?_, ?_, ?_, ?_, ?_, ?_⟩
  · by_cases hrs : tc.results_server <;>
      simp [Supervisor.run_job, hb, hrs, List.filter_append, isSpawn,
        List.filter_map, Function.comp]
  · by_cases hrs : tc.results_server <;>
      simp [Worker.run_job, hb, hrs, List.filter_append, isSpawn]
  · by_cases hrs : tc.results_server <;>
      simp [Supervisor.run_job, hb, hrs]
  · by_cases hrs : tc.results_server <;>
      simp [Worker.run_job, hb, hrs]
  · intro heq
    have hl := congrArg String.length heq
    simp only [pjoin, String.length_append] at hl
    have e1 : "teuthology-results".length = 18 := rfl
    have e2 : "teuthology".length = 10 := rfl
    rw [e1, e2] at hl
    omega
  · intro hf
    simp [boundary_args, hf]
  · intro hf
    simp [boundary_args, hf]

/-- Witness for C5 at a concrete last-in-suite job with an email set. -/
theorem C5_boundary_dispatch_witness :
    (Supervisor.run_job
        { baseCfg with last_in_suite := true, email := some "a@b" }
        tcOn "/bin" "/adir" false (fun s => s) fs0).1.filter isSpawn
      = [Event.spawn
          ["/bin/teuthology-results", "--archive-dir", "/adir/run-a",
           "--name", "run-a", "--timeout", "21600", "--email", "a@b"] true] := by
  have h := C5_boundary_dispatch
      { baseCfg with last_in_suite := true, email := some "a@b" }
      tcOn "/bin" "/adir" false (fun s => s) "tmp" fs0 (Or.inr rfl)
  exact h.1.trans (by decide)

/-- C10: a job with both `first_in_suite` and `last_in_suite` set is
dispatched as first-in-suite: the single aggregator spawn's argument list
is the base plus the seed/subset arguments (when present) — the
timeout/email branch is not taken. -/
theorem C10_both_flags_first_wins (cfg : JobConfig) (tc : TeuthConfig)
    (bin adir : String) (verbose : Bool) (munge : String → String)
    (tmp : String) (fs : FS)
    (h1 : cfg.first_in_suite = true) (h2 : cfg.last_in_suite = true) :
    (Supervisor.run_job cfg tc bin adir verbose munge fs).1.filter isSpawn
        = [Event.spawn (boundary_args cfg tc bin adir munge) true]
    ∧ (Worker.run_job cfg tc bin adir verbose munge tmp fs).1.filter isSpawn
        = [Event.spawn (boundary_args cfg tc bin adir munge) true]
    ∧ boundary_args cfg tc bin adir munge
        = [pjoin bin "teuthology-results",
           "--archive-dir", pjoin adir (munge cfg.name),
           "--name", cfg.name]
          ++ (match cfg.seed with | some s => ["--seed", s] | none => [])
          ++ (match cfg.subset with | some s => ["--subset", s] | none => []) := by
  have hb : (cfg.first_in_suite || cfg.last_in_suite) = true := by
    simp [h1, h2]
  refine ⟨?_, ?_, ?_⟩
  · by_cases hrs : tc.results_server <;>
      simp [Supervisor.run_job, hb, hrs, List.filter_append, isSpawn,
        List.filter_map, Function.comp]
  · by_cases hrs : tc.results_server <;>
      simp [Worker.run_job, hb, hrs, List.filter_append, isSpawn]
  · simp [boundary_args, h1]

/-- Witness for C10 at a concrete job with both flags, a seed and a
subset: the aggregator gets the seed and subset arguments and neither
`--timeout` nor `--email`. -/
theorem C10_both_flags_first_wins_witness :
    boundary_args
        { baseCfg with first_in_suite := true, last_in_suite := true,
                       seed := some "17", subset := some "2/4" }
        tcOn "/bin" "/adir" (fun s => s)
      = ["/bin/teuthology-results", "--archive-dir", "/adir/run-a",
         "--name", "run-a", "--seed", "17", "--subset", "2/4"] := by
  have h := C10_both_flags_first_wins
      { baseCfg with first_in_suite := true, last_in_suite := true,
                     seed := some "17", subset := some "2/4" }
      tcOn "/bin" "/adir" false (fun s => s) "tmp" fs0 rfl rfl
  exact h.2.2.trans (by decide)

/-- The filesystem of the C6 counterexample: the job's archive directory
exists and holds one file. -/
def fsC6 : FS := { dirs := ["/a/1"], files := [("/a/1", "f.log")] }

/-- C6 (counterexample): the worker's boundary dispatch launches the
aggregator but leaves the job's archive directory and its file untouched
on disk. -/
theorem C6_counterexample :
    ("/a/1" ∈ (Worker.run_job { baseCfg with last_in_suite := true }
        tcOn "/bin" "/adir" false (fun s => s) "tmp" fsC6).2.dirs)
    ∧ (("/a/1", "f.log") ∈ (Worker.run_job { baseCfg with last_in_suite := true }
        tcOn "/bin" "/adir" false (fun s => s) "tmp" fsC6).2.files)
    ∧ (Worker.run_job { baseCfg with last_in_suite := true }
        tcOn "/bin" "/adir" false (fun s => s) "tmp" fsC6).1.filter isSpawn
        ≠ [] := by
  decide

/-- C6 (amended, supervisor): for a boundary job the supervisor dispatch
deletes every file of the job's archive directory and the directory
itself, touches nothing else on disk, and performs no disk deletion before
the aggregator spawn. -/
theorem C6_supervisor_boundary_deletes_archive (cfg : JobConfig)
    (tc : TeuthConfig) (bin adir : String) (verbose : Bool)
    (munge : String → String) (fs : FS)
    (h : cfg.first_in_suite = true ∨ cfg.last_in_suite = true) :
    (∀ n, (cfg.archive_path, n)
        ∉ (Supervisor.run_job cfg tc bin adir verbose munge fs).2.files)
    ∧ cfg.archive_path ∉ (Supervisor.run_job cfg tc bin adir verbose munge fs).2.dirs
    ∧ (∀ d n, d ≠ cfg.archive_path →
        (((d, n) ∈ (Supervisor.run_job cfg tc bin adir verbose munge fs).2.files)
          ↔ ((d, n) ∈ fs.files)))
    ∧ (∀ d, d ≠ cfg.archive_path →
        ((d ∈ (Supervisor.run_job cfg tc bin adir verbose munge fs).2.dirs)
          ↔ (d ∈ fs.dirs)))
    ∧ (∃ l₁ l₂, (Supervisor.run_job cfg tc bin adir verbose munge fs).1
          = l₁ ++ Event.spawn (boundary_args cfg tc bin adir munge) true :: l₂
        ∧ ∀ e ∈ l₁, isFsDelete e = false) := by
  have hb : (cfg.first_in_suite || cfg.last_in_suite) = true := by
    rcases h with h | h <;> simp [h]
  have h2 : (Supervisor.run_job cfg tc bin adir verbose munge fs).2
      = fs.removeDirTree cfg.archive_path := by
    simp [Supervisor.run_job, hb]
  refine ⟨?_, ?_, ?_, ?_, ?_⟩
  · intro n
    rw [h2]
    simp [FS.removeDirTree, List.mem_filter]
  · rw [h2]
    simp [FS.removeDirTree, List.mem_filter]
  · intro d n hd
    rw [h2]
    simp [FS.removeDirTree, List.mem_filter, hd]
  · intro d hd
    rw [h2]
    simp [FS.removeDirTree, List.mem_filter, hd]
  · by_cases hrs : tc.results_server
    · refine ⟨[Event.deleteJobs],
        (fs.listdir cfg.archive_path).map
          (fun f => Event.removeFile cfg.archive_path f)
          ++ [Event.rmdir cfg.archive_path], ?_, ?_⟩
      · simp [Supervisor.run_job, hb, hrs]
      · intro e he
        simp at he
        subst he
        rfl
    · refine ⟨[],
        (fs.listdir cfg.archive_path).map
          (fun f => Event.removeFile cfg.archive_path f)
          ++ [Event.rmdir cfg.archive_path], ?_, ?_⟩
      · simp [Supervisor.run_job, hb, hrs]
      · intro e he
        simp at he

/-- Witness for C6 (amended) at a concrete boundary job: the archive
directory's file is gone, the unrelated directory's file survives. -/
theorem C6_supervisor_boundary_deletes_archive_witness :
    (("/a/1", "f.log") ∉ (Supervisor.run_job
        { baseCfg with last_in_suite := true }
        tcOn "/bin" "/adir" false (fun s => s)
        { dirs := ["/a/1", "/keep"],
          files := [("/a/1", "f.log"), ("/keep", "y")] }).2.files)
    ∧ (("/keep", "y") ∈ (Supervisor.run_job
        { baseCfg with last_in_suite := true }
        tcOn "/bin" "/adir" false (fun s => s)
        { dirs := ["/a/1", "/keep"],
          files := [("/a/1", "f.log"), ("/keep", "y")] }).2.files) := by
  have h := C6_supervisor_boundary_deletes_archive
      { baseCfg with last_in_suite := true }
      tcOn "/bin" "/adir" false (fun s => s)
      { dirs := ["/a/1", "/keep"],
        files := [("/a/1", "f.log"), ("/keep", "y")] }
      (Or.inr rfl)
  exact ⟨h.1 "f.log", (h.2.2.1 "/keep" "y" (by decide)).mpr (by decide)⟩

/-- C7 (counterexample): the worker's controller, on a descriptor with
targets, reimages and spawns the execution subprocess but never writes the
updated descriptor back to the job-config storage — its trace contains no
persist event at all. -/
theorem C7_counterexample :
    ((Worker.main baseCfg [("t1", "k1a"), ("t2", "k2a")] tcOn "/bin" "/adir"
        false (fun s => s) "/tmp/cfg" fs0).1.filter isPersist = [])
    ∧ ((Worker.main baseCfg [("t1", "k1a"), ("t2", "k2a")] tcOn "/bin" "/adir"
        false (fun s => s) "/tmp/cfg" fs0).1.filter isSpawn ≠ []) := by
  decide

/-- C7 (amended, supervisor): on a descriptor with targets, the supervisor
runs the reimage step and writes the updated descriptor — its target
mapping replaced by the reimage result — back to the job-config file
strictly before spawning the execution subprocess. -/
theorem C7_supervisor_persists_before_spawn (cfg : JobConfig)
    (reimaged : List (String × String)) (tc : TeuthConfig)
    (bin adir : String) (verbose : Bool) (munge : String → String) (fs : FS)
    (ht : cfg.targets.isSome = true)
    (h1 : cfg.first_in_suite = false) (h2 : cfg.last_in_suite = false) :
    ∃ rest, (Supervisor.main cfg reimaged tc bin adir verbose munge fs).1
      = [Event.pushStatus (some "waiting"),
         Event.reimage (cfg.targets.getD []) cfg.machine_type,
         Event.pushStatus (some "running"),
         Event.persistConfig { cfg with targets := some reimaged },
         Event.spawn
           (Supervisor.exec_args { cfg with targets := some reimaged } bin verbose)
           false]
        ++ rest := by
  refine ⟨(if tc.results_server then [Event.watchdog] else [Event.sleepWait])
      ++ [Event.unlockStep], ?_⟩
  by_cases hrs : tc.results_server <;>
    simp [Supervisor.main, Supervisor.reimage_machines, Supervisor.run_job,
      ht, h1, h2, hrs]

/-- Witness for C7 (amended) at a concrete descriptor. -/
theorem C7_supervisor_persists_before_spawn_witness :
    ∃ rest, (Supervisor.main baseCfg [("t1", "k1a"), ("t2", "k2a")] tcOn
        "/bin" "/adir" false (fun s => s) fs0).1
      = [Event.pushStatus (some "waiting"),
         Event.reimage [("t1", "k1"), ("t2", "k2")] "mt",
         Event.pushStatus (some "running"),
         Event.persistConfig
           { baseCfg with targets := some [("t1", "k1a"), ("t2", "k2a")] },
         Event.spawn
           (Supervisor.exec_args
             { baseCfg with targets := some [("t1", "k1a"), ("t2", "k2a")] }
             "/bin" false)
           false]
        ++ rest := by
  exact C7_supervisor_persists_before_spawn baseCfg
      [("t1", "k1a"), ("t2", "k2a")] tcOn "/bin" "/adir" false (fun s => s)
      fs0 rfl rfl rfl

/-- The per-host pulls attempted by the host loop of
`supervisor.archive_logs`, independent of which pulls fail. -/
theorem supervisor_hosts_pulls (pullOk : String → String → Bool)
    (path rp lp : String) (dirs : List String) (remotes : List String) :
    pullsOf (Supervisor.archive_logs_hosts pullOk path rp lp dirs remotes).1
      = remotes.map (fun r => (r, rp, pjoin (pjoin path r) lp)) := by
  induction remotes generalizing dirs with
  | nil => rfl
  | cons r rest ih =>
      by_cases hs : pjoin path r ∈ dirs <;>
        simp [Supervisor.archive_logs_hosts, hs, pullsOf_append, pullsOf, ih]

/-- The pulls attempted by `supervisor.archive_logs`. -/
theorem supervisor_archive_logs_pulls (remotes : List String)
    (pullOk : String → String → Bool) (archive rp lp : String)
    (dirs : List String) :
    pullsOf (Supervisor.archive_logs remotes pullOk archive rp lp dirs).1
      = remotes.map (fun r =>
          (r, rp, pjoin (pjoin (pjoin archive "remote") r) lp)) := by
  unfold Supervisor.archive_logs
  by_cases hp : pjoin archive "remote" ∈ dirs <;>
    simp [hp, pullsOf_append, pullsOf, supervisor_hosts_pulls]

/-- The pulls attempted by the phase loop of
`supervisor.transfer_archives`. -/
theorem supervisor_phases_pulls (remotes : List String)
    (pullOk : String → String → Bool) (archive : String)
    (dirs : List String) (m : List (String × String)) :
    pullsOf (Supervisor.transfer_phases remotes pullOk archive dirs m).1
      = m.flatMap (fun p => remotes.map (fun r =>
          (r, p.2, pjoin (pjoin (pjoin archive "remote") r)
                     (if p.1 = "init" then "" else p.1)))) := by
  induction m generalizing dirs with
  | nil => rfl
  | cons p rest ih =>
      simp [Supervisor.transfer_phases, pullsOf, pullsOf_append,
        supervisor_archive_logs_pulls, ih]

/-- The job record of the C8 counterexample: an archive map with an `init`
phase and a `syslog` phase. -/
def infoC8 : JobInfo :=
  { status := "fail", targets := [("t1", "k1")], owner := "own",
    archive_path := "/a/1",
    archive := some [("init", "/r/init"), ("syslog", "/r/syslog")] }

/-- C8 (counterexample): when pulling `/r/init` raises `ReadError`, the
worker's transfer attempts only that one pull and aborts — the `syslog`
phase is never pulled — while the supervisor's transfer attempts both. -/
theorem C8_counterexample :
    ((pullsOf (Worker.transfer_archives infoC8 ["h1"]
        (fun _ src => src != "/r/init") "/a/1" []).1).length = 1)
    ∧ ((Worker.transfer_archives infoC8 ["h1"]
        (fun _ src => src != "/r/init") "/a/1" []).2 = false)
    ∧ ((pullsOf (Supervisor.transfer_archives infoC8 ["h1"]
        (fun _ src => src != "/r/init") "/a/1" []).1).length = 2) := by
  decide

/-- C8 (amended, supervisor): the supervisor's pull step attempts, for
every phase of the recorded archive map and every host, exactly one pull
whose destination is the per-host root under the archive's `remote/` tree
for the phase named `init` and a like-named subdirectory otherwise; the
set of attempted pulls does not depend on which pulls fail, so a failed
(corrupt or missing) remote archive is ignored for that phase and host
only and never aborts the transfer. -/
theorem C8_supervisor_pull_per_phase (info : JobInfo)
    (remotes : List String) (pullOk1 pullOk2 : String → String → Bool)
    (archive : String) (dirs : List String) (m : List (String × String))
    (hm : info.archive = some m) :
    pullsOf (Supervisor.transfer_archives info remotes pullOk1 archive dirs).1
      = m.flatMap (fun p => remotes.map (fun r =>
          (r, p.2, pjoin (pjoin (pjoin archive "remote") r)
                     (if p.1 = "init" then "" else p.1))))
    ∧ pullsOf (Supervisor.transfer_archives info remotes pullOk1 archive dirs).1
      = pullsOf (Supervisor.transfer_archives info remotes pullOk2 archive dirs).1 := by
  constructor <;>
    simp [Supervisor.transfer_archives, hm, supervisor_phases_pulls]

/-- Witness for C8 (amended) at concrete inputs where every pull fails:
both pulls are still attempted, `init` landing at the per-host root
(trailing slash) and `syslog` in its like-named subdirectory. -/
theorem C8_supervisor_pull_per_phase_witness :
    pullsOf (Supervisor.transfer_archives infoC8 ["h1"]
        (fun _ _ => false) "/a/1" []).1
      = [("h1", "/r/init", "/a/1/remote/h1/"),
         ("h1", "/r/syslog", "/a/1/remote/h1/syslog")] := by
  have h := C8_supervisor_pull_per_phase infoC8 ["h1"] (fun _ _ => false)
      (fun _ _ => true) "/a/1" []
      [("init", "/r/init"), ("syslog", "/r/syslog")] rfl
  exact h.1.trans (by decide)
